import Mathlib

/-!
Shallow embedding of the bytepath simulation core (Rust sources under `src/`).

Numeric model: Rust `f32` values are modelled as exact rationals (`ℚ`).
The one place where IEEE non-finite results matter (`0.0 / 0.0 = NaN` in
`Interpolation::eval` when `duration = 0`) is modelled by `fdiv : ℚ → ℚ → Option ℚ`
returning `none` for a zero divisor; a `none` (non-finite) value propagates
through the easing function and the lerp, exactly as NaN does in IEEE arithmetic.
Transcendental collaborators (`f32::cos`, `f32::sin`, the degree conversion
`radians * 180 / PI`) are parameters of the embedding (`TrigModel`), since the
claims under scrutiny do not depend on their values.
-/

namespace Bytepath

/-- `environment.rs`: `SCREEN_WIDTH = (1920/2)/2 = 480` (an `i32`, used as `f32`). -/
def SCREEN_WIDTH : ℚ := 480

/-- `environment.rs`: `SCREEN_HEIGHT = (1080/2)/2 = 270` (an `i32`, used as `f32`). -/
def SCREEN_HEIGHT : ℚ := 270

/-- `environment.rs`: `SLOW_DOWN_DURATION_ON_DEATH: f32 = 2.5`. -/
def SLOW_DOWN_DURATION_ON_DEATH : ℚ := 5/2

/-- `easings.rs`: `ease_in_out_cubic`: `4x³` for `x < 0.5`, else `1 − (−2x+2)³/2`. -/
def ease_in_out_cubic (x : ℚ) : ℚ :=
  if x < 1/2 then 4 * x * x * x else 1 - (-2 * x + 2)^3 / 2

/-- IEEE-style division used by `Interpolation::eval`: a zero divisor yields a
non-finite `f32` (`0/0 = NaN`, `x/0 = ±∞`), modelled as `none`. -/
def fdiv (a b : ℚ) : Option ℚ := if b = 0 then none else some (a / b)

/-- `components.rs`: `Interpolation { time, duration, begin_end }`.
Note the source has no `repeating` field. -/
structure Interpolation where
  time : ℚ
  duration : ℚ
  begin_end : List (ℚ × ℚ)
  deriving DecidableEq

/-- `Interpolation::new`. -/
def Interpolation.new (begin_end : List (ℚ × ℚ)) (duration : ℚ) : Interpolation :=
  { time := 0, duration := duration, begin_end := begin_end }

/-- `components.rs` lines 102–120, `Interpolation::eval`:
adds `t` to `time`; if `time >= duration` then `time` is reset to `0` and
`finished` is set; afterwards every `(begin,end)` pair is evaluated at
`easing_fn(time / duration)` — i.e. at the *already reset* time.
Returns the updated component together with `(values, finished)`;
a `none` value is a non-finite `f32` (NaN). -/
def Interpolation.eval (i : Interpolation) (t : ℚ) (easing_fn : ℚ → ℚ) :
    Interpolation × (List (Option ℚ) × Bool) :=
  let time := i.time + t
  let reset := time ≥ i.duration
  let time := if reset then 0 else time
  let finished := reset
  ({ i with time := time },
   (i.begin_end.map (fun p =>
      (fdiv time i.duration).map (fun x =>
        let easing := easing_fn x
        (1 - easing) * p.1 + easing * p.2)),
    finished))

/-- `resources.rs`: `Timer { elapsed, duration, count: u8, finished, repeating }`. -/
structure Timer where
  elapsed : ℚ
  duration : ℚ
  count : ℕ
  finished : Bool
  repeating : Bool
  deriving DecidableEq

/-- `Timer::from_seconds`. -/
def Timer.from_seconds (seconds : ℚ) (repeating : Bool) : Timer :=
  { elapsed := 0, duration := seconds, count := 0, finished := false, repeating := repeating }

/-- `Timer::reset`. -/
def Timer.reset (t : Timer) : Timer :=
  { t with finished := false, elapsed := 0 }

/-- `resources.rs` lines 242–253, `Timer::tick`:
clamp-accumulate `elapsed` to `duration` first, then (if `repeating && finished`)
reset — discarding this call's delta — then set `finished`/bump `count`
when `elapsed >= duration`. `count` is a `u8`, so it wraps at 256. -/
def Timer.tick (t : Timer) (delta : ℚ) : Timer :=
  let t := { t with elapsed := min (t.elapsed + delta) t.duration }
  let t := if t.repeating ∧ t.finished then t.reset else t
  if t.elapsed ≥ t.duration then
    { t with finished := true, count := (t.count + 1) % 256 }
  else t

/-- `components.rs`: `Position { x, y }`. -/
structure Position where
  x : ℚ
  y : ℚ
  deriving DecidableEq

/-- `components.rs`: `Angle { radians, velocity }`. -/
structure Angle where
  radians : ℚ
  velocity : ℚ
  deriving DecidableEq

/-- `components.rs`: `Velocity { base_x, base_y, x, y }`. -/
structure Velocity where
  base_x : ℚ
  base_y : ℚ
  x : ℚ
  y : ℚ
  deriving DecidableEq

/-- `Velocity::new(value)`: all four fields set to `value`. -/
def Velocity.new (value : ℚ) : Velocity :=
  { base_x := value, base_y := value, x := value, y := value }

/-- `components.rs` lines 192–234: `BoostRes` (the boost component used by
`PlayerSystem`, named `Boost` at its use site in `systems.rs`). -/
structure BoostRes where
  max_boost : ℚ
  boost : ℚ
  cooldown : Option ℚ
  inc_amount : ℚ
  dec_amount : ℚ
  cooldown_sec : Option ℚ
  deriving DecidableEq

/-- `BoostRes::is_empty`: `boost < 0.0`. -/
def BoostRes.is_empty (b : BoostRes) : Bool := b.boost < 0

/-- `BoostRes::no_cooldown`: `cooldown.is_none()`. -/
def BoostRes.no_cooldown (b : BoostRes) : Bool := b.cooldown.isNone

/-- `BoostRes::can_boost`: `cooldown.is_none() && boost > 0.0`. -/
def BoostRes.can_boost (b : BoostRes) : Bool := b.cooldown.isNone && 0 < b.boost

/-- `BoostRes::default`: max 100, boost 100, no cooldown, inc 10, dec 50, cooldown_sec 2. -/
def BoostRes.default : BoostRes :=
  { max_boost := 100, boost := 100, cooldown := none,
    inc_amount := 10, dec_amount := 50, cooldown_sec := some 2 }

/-- The keyboard keys `PlayerSystem::run` inspects. -/
inductive Keycode where
  | Left | Right | Up | Down | D | S | F1 | Other
  deriving DecidableEq

/-- The domain events of `systems.rs` (`GameEvents`). -/
inductive GameEvent where
  | PlayerDeath (pos : Position)
  | PlayerSpawn
  | ProjectileDeath (pos : Position)
  deriving DecidableEq

/-- The transcendental `f32` collaborators used by `PlayerSystem::run`:
`f32::cos`, `f32::sin` and the degree conversion `radians * 180.0 / PI`.
Their values never matter for the claims below, so they are parameters. -/
structure TrigModel where
  cos : ℚ → ℚ
  sin : ℚ → ℚ
  toDegrees : ℚ → ℚ
  pi : ℚ

/-- The components of one player entity touched by `PlayerSystem::run`
(position, angle, velocity, boost, and the sprite fields it reads/writes). -/
structure PlayerComponents where
  position : Position
  angle : Angle
  velocity : Velocity
  boost : BoostRes
  sprite_rotation : ℚ
  sprite_width : ℚ
  sprite_height : ℚ
  deriving DecidableEq

/-- One iteration of the keycode match in `PlayerSystem::run` (`systems.rs`
lines 497–521): Left/Right rotate, Up/Down scale current velocity and drain
boost when `can_boost()`, D deletes the entity and emits `PlayerDeath`. -/
def playerApplyKey (dt : ℚ) (acc : PlayerComponents × Bool × List GameEvent)
    (k : Keycode) : PlayerComponents × Bool × List GameEvent :=
  let p := acc.1
  let alive := acc.2.1
  let evs := acc.2.2
  match k with
  | .Left =>
    ({ p with angle := { p.angle with radians := p.angle.radians - p.angle.velocity * dt } },
     alive, evs)
  | .Right =>
    ({ p with angle := { p.angle with radians := p.angle.radians + p.angle.velocity * dt } },
     alive, evs)
  | .Up =>
    if p.boost.can_boost then
      ({ p with
          velocity := { p.velocity with x := p.velocity.x * (3/2), y := p.velocity.y * (3/2) },
          boost := { p.boost with boost := p.boost.boost - p.boost.dec_amount * dt } },
       alive, evs)
    else acc
  | .Down =>
    if p.boost.can_boost then
      ({ p with
          velocity := { p.velocity with x := p.velocity.x * (1/2), y := p.velocity.y * (1/2) },
          boost := { p.boost with boost := p.boost.boost - p.boost.dec_amount * dt } },
       alive, evs)
    else acc
  | .D => (p, false, evs ++ [.PlayerDeath p.position])
  | _ => acc

/-- Result of running `PlayerSystem::run` on one player entity:
the mutated components, whether the entity survived, and the events written. -/
structure PlayerStepResult where
  state : PlayerComponents
  alive : Bool
  events : List GameEvent
  deriving DecidableEq

/-- The per-player body of `PlayerSystem::run` (`systems.rs` lines 486–549):
key handling, boost cooldown maintenance, sprite rotation, position advance,
unconditional velocity reset to base, boost regeneration clamped to
`max_boost`, and the screen-bounds death check. -/
def playerStep (T : TrigModel) (keys : List Keycode) (dt : ℚ)
    (p0 : PlayerComponents) : PlayerStepResult :=
  let acc := keys.foldl (playerApplyKey dt) (p0, true, [])
  let p := acc.1
  let alive := acc.2.1
  let evs := acc.2.2
  let boost :=
    if p.boost.is_empty ∧ p.boost.no_cooldown then
      { p.boost with cooldown := p.boost.cooldown_sec }
    else
      match p.boost.cooldown with
      | some cd =>
        let cd := cd - dt
        { p.boost with cooldown := if cd > 0 then some cd else none }
      | none => p.boost
  let p := { p with boost := boost }
  let p := { p with sprite_rotation := T.toDegrees p.angle.radians }
  let p := { p with position :=
    { x := p.position.x + p.velocity.x * dt * T.cos p.angle.radians,
      y := p.position.y + p.velocity.y * dt * T.sin p.angle.radians } }
  let p := { p with velocity :=
    { p.velocity with x := p.velocity.base_x, y := p.velocity.base_y } }
  let p := { p with boost :=
    { p.boost with boost := min p.boost.max_boost (p.boost.boost + p.boost.inc_amount * dt) } }
  let ox := p.sprite_width / 2
  let oy := p.sprite_height / 2
  if p.position.x - ox < (0:ℚ) ∨ p.position.x + ox > SCREEN_WIDTH
      ∨ p.position.y - oy < (0:ℚ) ∨ p.position.y + oy > SCREEN_HEIGHT then
    { state := p, alive := false, events := evs ++ [.PlayerDeath p.position] }
  else
    { state := p, alive := alive, events := evs }

/-- The player entity built by `PlayerSystem::setup` (`systems.rs` lines 578–597)
and by the S-key respawn path (lines 555–571): centre of the screen, default
angle (`-PI/2` heading, `1.66·PI` rotation speed), `Velocity::new(100)`,
a 32×32 sprite, default boost. -/
def setupPlayer (piQ : ℚ) : PlayerComponents :=
  { position := { x := SCREEN_WIDTH / 2, y := SCREEN_HEIGHT / 2 },
    angle := { radians := -piQ / 2, velocity := 166/100 * piQ },
    velocity := Velocity.new 100,
    boost := BoostRes.default,
    sprite_rotation := 0,
    sprite_width := 32,
    sprite_height := 32 }

/-- The frame loop's timing state (`main.rs`, `main2`): the `slowdown_timer`
and the `Duration` resource fed to the simulation systems. -/
structure TimeState where
  slowdown_timer : Option ℚ
  resource : ℚ
  deriving DecidableEq

/-- One iteration of the time-dilation logic in the frame loop (`main.rs`,
`main2`, lines 248–264): a `PlayerDeath` event arms `slowdown_timer = Some(0)`;
an armed timer is taken, advanced by `dt`, and while the total is
`≤ SLOW_DOWN_DURATION_ON_DEATH` the resource is set to `dt * slow_amount` with
`slow_amount = (1−easing)·0.15 + easing·1.0`, `easing = ease_in_out_cubic(total/2.5)`;
once the total exceeds the window the timer is dropped and — note — the
resource is *not* written on that step. With no timer the resource is `dt`. -/
def timeStep (st : TimeState) (dt : ℚ) (playerDeath : Bool) : TimeState :=
  let timer := if playerDeath then some 0 else st.slowdown_timer
  match timer with
  | some timer =>
    let timer := timer + dt
    if timer ≤ SLOW_DOWN_DURATION_ON_DEATH then
      let easing := ease_in_out_cubic (timer / SLOW_DOWN_DURATION_ON_DEATH)
      let slow_amount := (1 - easing) * (15/100) + easing * 1
      { slowdown_timer := some timer, resource := dt * slow_amount }
    else
      { slowdown_timer := none, resource := st.resource }
  | none => { slowdown_timer := none, resource := dt }

/-- Rust `as i32` on a finite `f32`: truncation toward zero. -/
def truncToInt (q : ℚ) : ℤ := if 0 ≤ q then ⌊q⌋ else ⌈q⌉

/-- `ShakeSystem`'s private state (`systems.rs` lines 372–382; `setup` fills
duration 0.4, frequency 60, amplitude 6 and two sample arrays). -/
structure ShakeGen where
  duration : ℚ
  frequency : ℚ
  amplitude : ℚ
  samples_x : List ℚ
  samples_y : List ℚ
  time : ℚ
  is_shaking : Bool
  deriving DecidableEq

/-- The `Shake` resource written by `ShakeSystem::run` (the camera offset). -/
structure ShakeOffset where
  x : ℤ
  y : ℤ
  deriving DecidableEq

/-- The `noise` closure inside `ShakeSystem::run`: index the sample array by
`n as usize` (truncating; the argument is a nonnegative whole number here),
out-of-range indices read as `0`. -/
def shakeNoise (samples : List ℚ) (n : ℚ) : ℚ :=
  let i := (⌊n⌋).toNat
  if i ≥ samples.length then 0 else samples.getD i 0

/-- `ShakeSystem::run` (`systems.rs` lines 387–431) for one step: a
`PlayerDeath` event sets `is_shaking`; while shaking, `time += dt`; if
`time > duration` the state is reset (`time = 0`, `is_shaking = false`) and the
function returns *without touching the offset*; otherwise the offset is the
linear interpolation of neighbouring samples scaled by the linear decay
`k = (duration − time)/duration` and `amplitude`, truncated `as i32`. -/
def shakeStep (st : ShakeGen) (offset : ShakeOffset) (dt : ℚ) (playerDeath : Bool) :
    ShakeGen × ShakeOffset :=
  let st := if playerDeath then { st with is_shaking := true } else st
  if st.is_shaking then
    let time := st.time + dt
    if time > st.duration then
      ({ st with time := 0, is_shaking := false }, offset)
    else
      let s := time * st.frequency
      let s0 : ℚ := (⌊s⌋ : ℤ)
      let s1 := s0 + 1
      let k := if time ≥ st.duration then 0 else (st.duration - time) / st.duration
      let amp := fun samples =>
        truncToInt ((shakeNoise samples s0
          + (s - s0) * (shakeNoise samples s1 - shakeNoise samples s0)) * k * st.amplitude)
      ({ st with time := time }, { x := amp st.samples_x, y := amp st.samples_y })
  else (st, offset)

/-- The flight-and-boundary part of `ProjectileSystem::run` (`systems.rs`
lines 731–739) for one projectile: advance the position along the heading
(`c`/`s` are the `f32` cosine/sine of the projectile's angle), then if the new
position lies outside the screen delete the entity and emit `ProjectileDeath`
at that position. Returns the new position and whether the projectile died. -/
def projectileStep (c s : ℚ) (vel : Velocity) (dt : ℚ) (pos : Position) :
    Position × Bool :=
  let x := pos.x + vel.x * dt * c
  let y := pos.y + vel.y * dt * s
  ({ x := x, y := y },
   decide (x < 0 ∨ x > SCREEN_WIDTH ∨ y < 0 ∨ y > SCREEN_HEIGHT))

/-- The position adjustment in `ProjectileDeathSystem::run` (`systems.rs`
lines 826–845): a dead projectile's spawn position is nudged 1.5 px inward on
each axis that violated the screen bounds (not clamped). -/
def deadProjectilePos (pos : Position) : Position :=
  let x := if pos.x < 0 then pos.x + 3/2
           else if pos.x > SCREEN_WIDTH then pos.x - 3/2
           else pos.x
  let y := if pos.y < 0 then pos.y + 3/2
           else if pos.y > SCREEN_HEIGHT then pos.y - 3/2
           else pos.y
  { x := x, y := y }

/-- The per-step inputs of `PlayerSystem::run` relevant to the player-count
invariant: the pressed keys, the step duration, and whether this frame's
`(&players, &entities).join().count()` already sees entities deleted earlier
in the same run (the ECS library's visibility policy; the invariant holds
either way). -/
structure StepInput where
  keys : List Keycode
  dt : ℚ
  seesDeletes : Bool

/-- `PlayerSystem::run` at the world level (`systems.rs` lines 486–576):
every player entity is stepped (possibly dying), then the S-key respawn path
counts the player entities and lazily spawns the setup player only when the
count is zero. -/
def worldPlayersStep (T : TrigModel) (inp : StepInput)
    (ps : List PlayerComponents) : List PlayerComponents :=
  let results := ps.map (playerStep T inp.keys inp.dt)
  let survivors := (results.filter (·.alive)).map (·.state)
  let counted := if inp.seesDeletes then survivors.length else ps.length
  if inp.keys.contains .S ∧ counted = 0 then survivors ++ [setupPlayer T.pi]
  else survivors

/-- A whole run: `PlayerSystem::setup` creates exactly one player
(`systems.rs` lines 578–597), then the game schedule repeats `worldPlayersStep`. -/
def worldPlayersRun (T : TrigModel) (inps : List StepInput) : List PlayerComponents :=
  inps.foldl (fun ps inp => worldPlayersStep T inp ps) [setupPlayer T.pi]

/-- Iterated `Timer::tick` with a fixed delta (the "sequence of tick calls" of
the timer contract). -/
def Timer.tickN (t : Timer) (delta : ℚ) : ℕ → Timer
  | 0 => t
  | n + 1 => (t.tickN delta n).tick delta

/-- Characterisation of a fresh repeating timer ticked `n` times with delta
exactly `duration`: states alternate between "just reset" and "just finished";
the delta of every tick arriving on a finished timer is discarded by the
accumulate-then-reset order in `Timer::tick`. -/
lemma Timer.tickN_duration_state (d : ℚ) (hd : 0 < d) (n : ℕ) :
    (Timer.from_seconds d true).tickN d n =
      if n % 2 = 0 then ⟨0, d, (n / 2) % 256, false, true⟩
      else ⟨d, d, ((n + 1) / 2) % 256, true, true⟩ := by
  induction n with
  | zero => simp [Timer.tickN, Timer.from_seconds]
  | succ n ih =>
    rw [Timer.tickN, ih]
    rcases Nat.even_or_odd n with he | ho
    · have h2 : n % 2 = 0 := Nat.even_iff.mp he
      have h2' : (n + 1) % 2 = 1 := by omega
      simp only [h2, if_pos rfl, h2', Nat.one_ne_zero, if_neg]
      simp only [Timer.tick, Timer.reset, zero_add, min_self, ge_iff_le, le_refl, if_pos]
      simp only [Bool.false_eq_true, and_false, if_neg, not_false_eq_true, if_true]
      have : (n + 1 + 1) / 2 = n / 2 + 1 := by omega
      simp [this, Nat.add_mod_left]
    · have h2 : n % 2 = 1 := Nat.odd_iff.mp ho
      have h2' : (n + 1) % 2 = 0 := by omega
      simp only [h2, Nat.one_ne_zero, if_neg, h2', if_pos rfl]
      simp only [Timer.tick, Timer.reset]
      have hmin : min (d + d) d = d := min_eq_right (by linarith)
      have hnot : ¬ ((0:ℚ) ≥ d) := by simpa using hd
      simp only [hmin, and_self, if_pos, ge_iff_le, hnot]
      have : (n + 1) / 2 = (n + 1 + 1) / 2 := by omega
      simp [this, hnot]

/-- C2: the claim fails on the code. A repeating timer with duration 1 ticked
twice with delta 1 (each ≤ duration, total 2 > duration) has `count = 1`,
not `⌊2/1⌋ = 2`; and the second tick — arriving on an already-finished timer —
leaves `elapsed = 0`: the code accumulates (clamped) *before* resetting, so the
call's delta is discarded rather than accumulated after the reset. -/
theorem C2_counterexample :
    (((Timer.from_seconds 1 true).tick 1).tick 1).count = 1 ∧
    (((Timer.from_seconds 1 true).tick 1).tick 1).elapsed = 0 ∧
    (1 : ℕ) ≠ 2 := by
  norm_num [Timer.tick, Timer.from_seconds, Timer.reset, min_def]

/-- C2 (amended): `Timer::tick` clamp-accumulates before the repeating reset,
so a tick on an already-finished repeating timer discards that call's delta
(leaving `elapsed = 0`, `finished = false`, `count` unchanged), and a fresh
repeating timer of duration `d > 0` ticked `n` times in steps of exactly `d`
reaches `count = ⌈n/2⌉ mod 256` — not `⌊total/d⌋ = n`. -/
theorem C2_timer_semantics (d : ℚ) (hd : 0 < d) :
    (∀ n : ℕ, ((Timer.from_seconds d true).tickN d n).count = ((n + 1) / 2) % 256) ∧
    (∀ (t : Timer) (δ : ℚ), t.repeating = true → t.finished = true → t.duration = d →
      (t.tick δ).elapsed = 0 ∧ (t.tick δ).finished = false ∧ (t.tick δ).count = t.count) := by
  constructor
  · intro n
    rw [Timer.tickN_duration_state d hd n]
    rcases Nat.even_or_odd n with he | ho
    · have h2 : n % 2 = 0 := Nat.even_iff.mp he
      have : (n + 1) / 2 = n / 2 := by omega
      simp [h2, this]
    · have h2 : n % 2 = 1 := Nat.odd_iff.mp ho
      simp [h2]
  · intro t δ hrep hfin hdur
    have hnot : ¬ ((0:ℚ) ≥ t.duration) := by rw [hdur]; simpa using hd
    simp [Timer.tick, Timer.reset, hrep, hfin, hnot]

/-- Witness for C2 at duration 1: five ticks of delta 1 give `count = 3`, and a
tick on a finished repeating timer `⟨1, 1, 1, true, true⟩` discards the delta. -/
theorem C2_timer_semantics_witness :
    ((Timer.from_seconds 1 true).tickN 1 5).count = ((5 + 1) / 2) % 256 ∧
    ((Timer.tick ⟨1, 1, 1, true, true⟩ 1).elapsed = 0 ∧
     (Timer.tick ⟨1, 1, 1, true, true⟩ 1).finished = false ∧
     (Timer.tick ⟨1, 1, 1, true, true⟩ 1).count = 1) :=
  ⟨(C2_timer_semantics 1 one_pos).1 5,
   (C2_timer_semantics 1 one_pos).2 ⟨1, 1, 1, true, true⟩ 1 rfl rfl rfl⟩

/-- C1: the claim fails on the code. For `Interpolation::new(vec![(2,5)], 1)`,
a single `eval` with delta 1 (deltas summing to exactly the duration) reports
`finished = true`, but the returned value is the *begin* endpoint 2, not the
end endpoint 5: `eval` resets `time` to 0 before computing the values. -/
theorem C1_counterexample :
    ((Interpolation.new [(2, 5)] 1).eval 1 ease_in_out_cubic).2.2 = true ∧
    ((Interpolation.new [(2, 5)] 1).eval 1 ease_in_out_cubic).2.1 = [some 2] ∧
    (some (2:ℚ)) ≠ some (5:ℚ) := by
  norm_num [Interpolation.eval, Interpolation.new, fdiv, ease_in_out_cubic]

/-- C1 (amended): on the step whose delta makes `time` reach or exceed a
positive `duration`, `eval` reports `finished = true`, and the returned value
of every `(begin, end)` pair equals the *begin* endpoint (the internal time is
reset to 0 before evaluation, and both source easing curves map 0 to 0). -/
theorem C1_interpolation_finish_returns_begin
    (i : Interpolation) (t : ℚ) (f : ℚ → ℚ)
    (hdur : 0 < i.duration) (hcross : i.duration ≤ i.time + t) (hf : f 0 = 0) :
    (i.eval t f).2.2 = true ∧
    (i.eval t f).2.1 = i.begin_end.map (fun p => some p.1) := by
  constructor
  · simp [Interpolation.eval, hcross]
  · simp [Interpolation.eval, hcross, fdiv, hdur.ne', hf]

/-- Witness for C1 at `Interpolation::new(vec![(2,5)], 1)`, delta 1,
`ease_in_out_cubic`. -/
theorem C1_interpolation_finish_returns_begin_witness :
    ((Interpolation.new [(2, 5)] 1).eval 1 ease_in_out_cubic).2.2 = true ∧
    ((Interpolation.new [(2, 5)] 1).eval 1 ease_in_out_cubic).2.1
      = (Interpolation.new [(2, 5)] 1).begin_end.map (fun p => some p.1) :=
  C1_interpolation_finish_returns_begin (Interpolation.new [(2, 5)] 1) 1
    ease_in_out_cubic (by norm_num [Interpolation.new])
    (by norm_num [Interpolation.new]) (by norm_num [ease_in_out_cubic])

/-- C7: the claim fails on the code. `Interpolation` has no repeating flag and
*always* resets `time` to 0 on the finishing step: after
`Interpolation::new(vec![(0,1)], 1).eval(1, ...)` the stored time is 0, not the
clamped/overflowed time `≥ duration` the claim asserts for non-repeating
interpolations. -/
theorem C7_counterexample :
    ((Interpolation.new [(0, 1)] 1).eval 1 ease_in_out_cubic).2.2 = true ∧
    ((Interpolation.new [(0, 1)] 1).eval 1 ease_in_out_cubic).1.time = 0 ∧
    ¬ ((Interpolation.new [(0, 1)] 1).eval 1 ease_in_out_cubic).1.time ≥ 1 := by
  norm_num [Interpolation.eval, Interpolation.new, fdiv, ease_in_out_cubic]

/-- C7 (amended): `Interpolation` has no repeating configuration; *every*
interpolation resets `time` to 0 on the same step `finished` is reported, so
the next call restarts the cycle (callers despawn the owner on `finished` to
prevent repetition). -/
theorem C7_every_interpolation_resets_time
    (i : Interpolation) (t : ℚ) (f : ℚ → ℚ) (hcross : i.duration ≤ i.time + t) :
    (i.eval t f).1 = { i with time := 0 } ∧ (i.eval t f).2.2 = true := by
  constructor <;> simp [Interpolation.eval, hcross]

/-- Witness for C7 at `Interpolation::new(vec![(0,1)], 1)`, delta 1. -/
theorem C7_every_interpolation_resets_time_witness :
    ((Interpolation.new [(0, 1)] 1).eval 1 ease_in_out_cubic).1
      = { Interpolation.new [(0, 1)] 1 with time := 0 } ∧
    ((Interpolation.new [(0, 1)] 1).eval 1 ease_in_out_cubic).2.2 = true :=
  C7_every_interpolation_resets_time (Interpolation.new [(0, 1)] 1) 1
    ease_in_out_cubic (by norm_num [Interpolation.new])

/-- C5: the claim fails on the code. `Interpolation::new(vec![(3,7)], 0)` —
duration 0 — evaluated with delta 1 reports `finished = true` but computes
`easing_fn(0.0 / 0.0)`: the returned value is NaN (modelled `none`), not the
end endpoint 7; there is no divide-by-zero guard. -/
theorem C5_counterexample :
    ((Interpolation.new [(3, 7)] 0).eval 1 ease_in_out_cubic).2.2 = true ∧
    ((Interpolation.new [(3, 7)] 0).eval 1 ease_in_out_cubic).2.1 = [none] ∧
    (none : Option ℚ) ≠ some (7:ℚ) := by
  refine ⟨?_, ?_, by simp⟩ <;>
    norm_num [Interpolation.eval, Interpolation.new, fdiv, ease_in_out_cubic]

/-- C5 (amended): `eval` on an interpolation with `duration ≤ 0` (and
nonnegative time/delta) always reports `finished = true` — there is no fault —
but the values are *not* the end endpoints: with `duration = 0` every value is
NaN (`0.0/0.0`), and with `duration < 0` every value is the begin endpoint
(`0/negative = 0`, easing of 0). -/
theorem C5_degenerate_duration
    (i : Interpolation) (t : ℚ) (f : ℚ → ℚ)
    (hdur : i.duration ≤ 0) (htime : 0 ≤ i.time) (ht : 0 ≤ t) :
    (i.eval t f).2.2 = true ∧
    (i.duration = 0 → (i.eval t f).2.1 = i.begin_end.map (fun _ => none)) ∧
    (i.duration < 0 → f 0 = 0 → (i.eval t f).2.1 = i.begin_end.map (fun p => some p.1)) := by
  have hcross : i.duration ≤ i.time + t := le_trans hdur (by linarith)
  refine ⟨by simp [Interpolation.eval, hcross], ?_, ?_⟩
  · intro h0
    simp [Interpolation.eval, hcross, fdiv, h0]
  · intro hneg hf
    simp [Interpolation.eval, hcross, fdiv, hneg.ne, hf]

/-- Witness for C5 at `Interpolation::new(vec![(3,7)], 0)`, delta 1. -/
theorem C5_degenerate_duration_witness :
    ((Interpolation.new [(3, 7)] 0).eval 1 ease_in_out_cubic).2.2 = true ∧
    ((Interpolation.new [(3, 7)] 0).duration = 0 →
      ((Interpolation.new [(3, 7)] 0).eval 1 ease_in_out_cubic).2.1
        = (Interpolation.new [(3, 7)] 0).begin_end.map (fun _ => none)) ∧
    ((Interpolation.new [(3, 7)] 0).duration < 0 → ease_in_out_cubic 0 = 0 →
      ((Interpolation.new [(3, 7)] 0).eval 1 ease_in_out_cubic).2.1
        = (Interpolation.new [(3, 7)] 0).begin_end.map (fun p => some p.1)) :=
  C5_degenerate_duration (Interpolation.new [(3, 7)] 0) 1 ease_in_out_cubic
    (by norm_num [Interpolation.new]) (by norm_num [Interpolation.new])
    (by norm_num)

/-- C3: the claim fails on the code. On the very step whose accumulated total
first exceeds `SLOW_DOWN_DURATION_ON_DEATH`, the loop drops the timer *without
writing the resource*, so the duration fed to the systems is the stale previous
value, not `raw_delta`: a death event followed by one step of `dt = 2.6 s`
(total `2.6 > 2.5`) leaves the resource at its old value `0`, not `2.6`. -/
theorem C3_counterexample :
    timeStep ⟨none, 0⟩ (13/5) true = ⟨none, 0⟩ ∧ (0 : ℚ) ≠ 13/5 := by
  norm_num [timeStep, SLOW_DOWN_DURATION_ON_DEATH]

/-- C3 (amended): while the accumulated total since the death event is
`≤ 2.5 s`, the fed duration is `raw_delta · ((1−e)·0.15 + e·1.0)` with
`e = ease_in_out_cubic(total / 2.5)`; on the first step whose total *exceeds*
2.5 s the timer is dropped but the resource keeps the previous step's value;
from the following step on (timer gone) the fed duration equals `raw_delta`.
A death event arms the timer at 0 before the step is processed. -/
theorem C3_time_dilation (st : TimeState) (dt t : ℚ) :
    (st.slowdown_timer = some t → t + dt ≤ SLOW_DOWN_DURATION_ON_DEATH →
      timeStep st dt false =
        ⟨some (t + dt),
         dt * ((1 - ease_in_out_cubic ((t + dt) / SLOW_DOWN_DURATION_ON_DEATH)) * (15/100)
               + ease_in_out_cubic ((t + dt) / SLOW_DOWN_DURATION_ON_DEATH) * 1)⟩) ∧
    (st.slowdown_timer = some t → SLOW_DOWN_DURATION_ON_DEATH < t + dt →
      timeStep st dt false = ⟨none, st.resource⟩) ∧
    (st.slowdown_timer = none → timeStep st dt false = ⟨none, dt⟩) ∧
    (timeStep st dt true = timeStep ⟨some 0, st.resource⟩ dt false) := by
  refine ⟨?_, ?_, ?_, ?_⟩
  · intro h hle
    simp [timeStep, h, hle]
  · intro h hgt
    simp [timeStep, h, not_le.mpr hgt]
  · intro h
    simp [timeStep, h]
  · simp [timeStep]

/-- Witness for C3: an armed timer at total 1 with `dt = 0.5` stays in the
window and scales the delta; an armed timer at 2 with `dt = 1` crosses the
window and keeps the stale resource 7; no timer feeds the raw delta through. -/
theorem C3_time_dilation_witness :
    timeStep ⟨some 1, 7⟩ (1/2) false =
      ⟨some (1 + 1/2),
       (1/2) * ((1 - ease_in_out_cubic ((1 + 1/2) / SLOW_DOWN_DURATION_ON_DEATH)) * (15/100)
             + ease_in_out_cubic ((1 + 1/2) / SLOW_DOWN_DURATION_ON_DEATH) * 1)⟩ ∧
    timeStep ⟨some 2, 7⟩ 1 false = ⟨none, (7:ℚ)⟩ ∧
    timeStep ⟨none, 7⟩ (1/2) false = ⟨none, (1/2 : ℚ)⟩ :=
  ⟨(C3_time_dilation ⟨some 1, 7⟩ (1/2) 1).1 rfl
     (by norm_num [SLOW_DOWN_DURATION_ON_DEATH]),
   (C3_time_dilation ⟨some 2, 7⟩ 1 2).2.1 rfl
     (by norm_num [SLOW_DOWN_DURATION_ON_DEATH]),
   (C3_time_dilation ⟨none, 7⟩ (1/2) 0).2.2.1 rfl⟩

/-- A concrete shake-generator state used to exhibit C4's failure: duration 2,
frequency 1, amplitude 6, constant samples. -/
def shakeTestGen : ShakeGen :=
  { duration := 2, frequency := 1, amplitude := 6,
    samples_x := [1, 1, 1], samples_y := [1, 1, 1],
    time := 0, is_shaking := false }

/-- C4: the claim fails on the code. Triggered by a death event, one step of
`dt = 1` writes the offset `(3, 3)`; the next step (`dt = 2`, time `3 > 2`)
deactivates the generator but returns early *without writing the offset*, so
the published offset remains `(3, 3)`, not `(0, 0)`. -/
theorem C4_counterexample :
    (shakeStep (shakeStep shakeTestGen ⟨0, 0⟩ 1 true).1
        (shakeStep shakeTestGen ⟨0, 0⟩ 1 true).2 2 false).2 = (⟨3, 3⟩ : ShakeOffset) ∧
    (shakeStep (shakeStep shakeTestGen ⟨0, 0⟩ 1 true).1
        (shakeStep shakeTestGen ⟨0, 0⟩ 1 true).2 2 false).1.is_shaking = false ∧
    ((⟨3, 3⟩ : ShakeOffset) ≠ ⟨0, 0⟩) := by
  norm_num [shakeStep, shakeTestGen, shakeNoise, truncToInt, List.getD]

/-- C4 (amended): once the accumulated time exceeds the configured duration,
the advance step resets the generator (`time = 0`, `is_shaking = false`) and
produces no further offsets until a new `PlayerDeath` event re-triggers it —
but on the deactivating step it returns early and leaves the previously
written offset in place rather than writing `(0, 0)`. -/
theorem C4_shake_expiry (st : ShakeGen) (off : ShakeOffset) (dt : ℚ)
    (hact : st.is_shaking = true) (hexp : st.duration < st.time + dt) :
    shakeStep st off dt false = ({ st with time := 0, is_shaking := false }, off) ∧
    (∀ (st' : ShakeGen) (off' : ShakeOffset) (dt' : ℚ), st'.is_shaking = false →
      shakeStep st' off' dt' false = (st', off')) := by
  constructor
  · simp [shakeStep, hact, hexp]
  · intro st' off' dt' h
    simp [shakeStep, h]

/-- Witness for C4: an active generator at time 1 with duration 1 and `dt = 1`
expires, keeping the offset `(5, 5)`. -/
theorem C4_shake_expiry_witness :
    shakeStep ⟨1, 1, 1, [], [], 1, true⟩ ⟨5, 5⟩ 1 false =
      ({ (⟨1, 1, 1, [], [], 1, true⟩ : ShakeGen) with time := 0, is_shaking := false },
       (⟨5, 5⟩ : ShakeOffset)) ∧
    (∀ (st' : ShakeGen) (off' : ShakeOffset) (dt' : ℚ), st'.is_shaking = false →
      shakeStep st' off' dt' false = (st', off')) :=
  C4_shake_expiry ⟨1, 1, 1, [], [], 1, true⟩ ⟨5, 5⟩ 1 rfl (by norm_num)

/-- C8: the claim fails on the code. A projectile at `x = 0.5` flying left
(`cos = −1`) with speed 150 and `dt = 1/60` moves to `x = −2`, is removed and
reported dead — but the dead-projectile spawn position is only nudged 1.5 px
inward, landing at `x = −0.5`, which is *not* inside the screen bounds. -/
theorem C8_counterexample :
    (projectileStep (-1) 0 (Velocity.new 150) (1/60) ⟨1/2, 100⟩).2 = true ∧
    deadProjectilePos (projectileStep (-1) 0 (Velocity.new 150) (1/60) ⟨1/2, 100⟩).1
      = ⟨-(1/2), 100⟩ ∧
    ¬ (0 ≤ (-(1/2) : ℚ)) := by
  norm_num [projectileStep, deadProjectilePos, Velocity.new, SCREEN_WIDTH, SCREEN_HEIGHT]

/-- C8 (amended): a projectile is removed (and a death event emitted at its
new position) exactly when its position leaves the screen; the dead-projectile
entity is spawned at the event position nudged 1.5 px inward on each violated
axis, which lies within the screen bounds only when the overshoot is at most
1.5 px. -/
theorem C8_projectile_boundary (c s : ℚ) (vel : Velocity) (dt : ℚ) (pos : Position) :
    ((projectileStep c s vel dt pos).2 = true ↔
      ((projectileStep c s vel dt pos).1.x < 0
        ∨ (projectileStep c s vel dt pos).1.x > SCREEN_WIDTH
        ∨ (projectileStep c s vel dt pos).1.y < 0
        ∨ (projectileStep c s vel dt pos).1.y > SCREEN_HEIGHT)) ∧
    (∀ q : Position, -(3/2) ≤ q.x → q.x ≤ SCREEN_WIDTH + 3/2 →
      -(3/2) ≤ q.y → q.y ≤ SCREEN_HEIGHT + 3/2 →
      0 ≤ (deadProjectilePos q).x ∧ (deadProjectilePos q).x ≤ SCREEN_WIDTH ∧
      0 ≤ (deadProjectilePos q).y ∧ (deadProjectilePos q).y ≤ SCREEN_HEIGHT) := by
  constructor
  · simp [projectileStep]
  · intro q hx1 hx2 hy1 hy2
    simp only [deadProjectilePos, SCREEN_WIDTH, SCREEN_HEIGHT] at *
    refine ⟨?_, ?_, ?_, ?_⟩ <;> dsimp only <;> split_ifs <;> linarith

/-- Witness for C8: a dead projectile spawned from an event at `(−1, 100)`
(overshoot 1 ≤ 1.5) lies within the screen bounds. -/
theorem C8_projectile_boundary_witness :
    0 ≤ (deadProjectilePos ⟨-1, 100⟩).x ∧ (deadProjectilePos ⟨-1, 100⟩).x ≤ SCREEN_WIDTH ∧
    0 ≤ (deadProjectilePos ⟨-1, 100⟩).y ∧ (deadProjectilePos ⟨-1, 100⟩).y ≤ SCREEN_HEIGHT :=
  (C8_projectile_boundary (-1) 0 (Velocity.new 150) (1/60) ⟨1/2, 100⟩).2 ⟨-1, 100⟩
    (by norm_num) (by norm_num [SCREEN_WIDTH]) (by norm_num) (by norm_num [SCREEN_HEIGHT])

/-- C9: after every run of the per-player body of `PlayerSystem::run`, the
current velocity equals the base velocity — the reset at `systems.rs` 535–536
is unconditional, so any boost modification lives for a single tick only.
This holds for every player state and input (in particular for survivors). -/
theorem C9_velocity_reset (T : TrigModel) (keys : List Keycode) (dt : ℚ)
    (p : PlayerComponents) :
    (playerStep T keys dt p).state.velocity.x
      = (playerStep T keys dt p).state.velocity.base_x ∧
    (playerStep T keys dt p).state.velocity.y
      = (playerStep T keys dt p).state.velocity.base_y := by
  unfold playerStep
  dsimp only
  split <;> exact ⟨rfl, rfl⟩

/-- One `PlayerSystem::run` preserves "at most one player": deletions only
shrink the player list, and the S-key respawn path spawns the setup player
only when the counted players are zero — whichever deletion-visibility policy
the store's join uses. -/
lemma worldPlayersStep_length_le (T : TrigModel) (inp : StepInput)
    (ps : List PlayerComponents) (h : ps.length ≤ 1) :
    (worldPlayersStep T inp ps).length ≤ 1 := by
  have hs : (((ps.map (playerStep T inp.keys inp.dt)).filter (fun r => r.alive)).map
      (fun r => r.state)).length ≤ ps.length := by
    rw [List.length_map]
    exact le_trans (List.length_filter_le _ _) (le_of_eq (List.length_map _ _))
  unfold worldPlayersStep
  dsimp only
  split
  · split
    · rename_i hcond
      rw [List.length_append]
      simp [hcond.2]
    · exact le_trans hs h
  · split
    · rename_i hcond
      rw [List.length_append]
      have h0 : (((ps.map (playerStep T inp.keys inp.dt)).filter (fun r => r.alive)).map
          (fun r => r.state)).length = 0 := Nat.le_zero.mp (hcond.2 ▸ hs)
      simp [h0]
    · exact le_trans hs h

/-- Invariant propagation along any input trace. -/
lemma worldPlayersRun_aux (T : TrigModel) (inps : List StepInput)
    (ps : List PlayerComponents) (h : ps.length ≤ 1) :
    (inps.foldl (fun ps inp => worldPlayersStep T inp ps) ps).length ≤ 1 := by
  induction inps generalizing ps with
  | nil => simpa using h
  | cons i is ih => exact ih _ (worldPlayersStep_length_le T i ps h)

/-- C10: in every reachable state there is at most one `Player` entity — the
setup stage creates exactly one, and the S-key respawn path of
`PlayerSystem::run` spawns only when the current player count is zero, so
every trace of steps keeps the count at `≤ 1`. -/
theorem C10_at_most_one_player (T : TrigModel) (inps : List StepInput) :
    (worldPlayersRun T []).length = 1 ∧ (worldPlayersRun T inps).length ≤ 1 := by
  constructor
  · simp [worldPlayersRun]
  · unfold worldPlayersRun
    exact worldPlayersRun_aux T inps [setupPlayer T.pi] (by simp)

/-- Holding the boost key: `n` consecutive runs of `PlayerSystem::run` with
`Up` pressed. -/
def playerHoldN (T : TrigModel) (dt : ℚ) : ℕ → PlayerComponents → PlayerComponents
  | 0, p => p
  | n + 1, p => playerHoldN T dt n (playerStep T [.Up] dt p).state

/-- Releasing the boost key: `n` consecutive runs of `PlayerSystem::run` with
no keys pressed. -/
def playerReleaseN (T : TrigModel) (dt : ℚ) : ℕ → PlayerComponents → PlayerComponents
  | 0, p => p
  | n + 1, p => playerReleaseN T dt n (playerStep T [] dt p).state

/-- One `Up`-held run of `PlayerSystem::run` on a boostable player drains
`dec_amount·dt` in the key loop and then regenerates `inc_amount·dt`
unconditionally at line 537, for a net drain of `(dec−inc)·dt`. -/
lemma playerStep_up_boost (T : TrigModel) (dt : ℚ) (p : PlayerComponents)
    (hcd : p.boost.cooldown = none) (hpos : 0 < p.boost.boost)
    (hnoneg : 0 ≤ p.boost.boost - p.boost.dec_amount * dt)
    (hmax : p.boost.boost - p.boost.dec_amount * dt + p.boost.inc_amount * dt
      ≤ p.boost.max_boost) :
    (playerStep T [.Up] dt p).state.boost =
      { p.boost with
        boost := p.boost.boost - p.boost.dec_amount * dt + p.boost.inc_amount * dt } := by
  have hcb : p.boost.can_boost = true := by
    simp [BoostRes.can_boost, hcd, hpos]
  have hne : ¬ (p.boost.boost - p.boost.dec_amount * dt < 0) := not_lt.mpr hnoneg
  unfold playerStep
  dsimp only [List.foldl]
  rw [playerApplyKey]
  dsimp only
  rw [if_pos hcb]
  split <;>
  · dsimp only
    simp [BoostRes.is_empty, BoostRes.no_cooldown, hcd, hne, min_eq_right hmax]

/-- One key-less run of `PlayerSystem::run` on a nonnegative-boost player with
no cooldown regenerates `inc_amount·dt`, clamped to `max_boost`. -/
lemma playerStep_release_boost (T : TrigModel) (dt : ℚ) (p : PlayerComponents)
    (hcd : p.boost.cooldown = none) (hb : 0 ≤ p.boost.boost) :
    (playerStep T [] dt p).state.boost =
      { p.boost with
        boost := min p.boost.max_boost (p.boost.boost + p.boost.inc_amount * dt) } := by
  have hne : ¬ (p.boost.boost < 0) := not_lt.mpr hb
  unfold playerStep
  dsimp only [List.foldl]
  split <;>
  · dsimp only
    simp [BoostRes.is_empty, BoostRes.no_cooldown, hcd, hne]

/-- Clamping to a ceiling absorbs across addition of a nonnegative amount. -/
lemma min_absorb_add (M c y : ℚ) (hy : 0 ≤ y) :
    min M (min M c + y) = min M (c + y) := by
  rcases le_total c M with h | h
  · rw [min_eq_right h]
  · rw [min_eq_left h, min_eq_left (by linarith), min_eq_left (by linarith)]

/-- Closed form of the boost value after `n` `Up`-held runs while boosting
remains possible. -/
lemma playerHoldN_boost (T : TrigModel) (dt : ℚ) (hdt : 0 < dt) (n : ℕ) :
    ∀ p : PlayerComponents, p.boost.cooldown = none →
    0 ≤ p.boost.inc_amount → p.boost.inc_amount ≤ p.boost.dec_amount →
    0 < p.boost.dec_amount → p.boost.boost ≤ p.boost.max_boost →
    (n : ℚ) * (p.boost.dec_amount * dt) ≤ p.boost.boost →
    (playerHoldN T dt n p).boost =
      { p.boost with
        boost := p.boost.boost
          - (n : ℚ) * ((p.boost.dec_amount - p.boost.inc_amount) * dt) } := by
  induction n with
  | zero =>
    intro p hcd hinc hid hdec hbm hble
    simp [playerHoldN]
  | succ n ih =>
    intro p hcd hinc hid hdec hbm hble
    have hcast : ((n + 1 : ℕ) : ℚ) = (n : ℚ) + 1 := by push_cast; ring
    have hnn : (0 : ℚ) ≤ (n : ℚ) := Nat.cast_nonneg n
    have hxpos : 0 < p.boost.dec_amount * dt := mul_pos hdec hdt
    have hble' : (n : ℚ) * (p.boost.dec_amount * dt) + p.boost.dec_amount * dt
        ≤ p.boost.boost := by rw [hcast] at hble; linarith
    have hpos : 0 < p.boost.boost := by nlinarith
    have hnoneg : 0 ≤ p.boost.boost - p.boost.dec_amount * dt := by nlinarith
    have hidt : p.boost.inc_amount * dt ≤ p.boost.dec_amount * dt :=
      mul_le_mul_of_nonneg_right hid (le_of_lt hdt)
    have hmax : p.boost.boost - p.boost.dec_amount * dt + p.boost.inc_amount * dt
        ≤ p.boost.max_boost := by linarith
    have hstep := playerStep_up_boost T dt p hcd hpos hnoneg hmax
    rw [playerHoldN]
    rw [ih (playerStep T [.Up] dt p).state (by rw [hstep]; exact hcd) (by rw [hstep]; exact hinc)
      (by rw [hstep]; exact hid) (by rw [hstep]; exact hdec)
      (by rw [hstep]; dsimp only; linarith)
      (by rw [hstep]; dsimp only; nlinarith [mul_nonneg hinc (le_of_lt hdt)])]
    rw [hstep]
    dsimp only
    congr 1
    rw [hcast]
    ring

/-- Closed form of the boost value after `n` key-less runs. -/
lemma playerReleaseN_boost (T : TrigModel) (dt : ℚ) (hdt : 0 ≤ dt) (n : ℕ) :
    ∀ p : PlayerComponents, p.boost.cooldown = none → 0 ≤ p.boost.boost →
    p.boost.boost ≤ p.boost.max_boost → 0 ≤ p.boost.inc_amount →
    (playerReleaseN T dt n p).boost =
      { p.boost with
        boost := min p.boost.max_boost
          (p.boost.boost + (n : ℚ) * (p.boost.inc_amount * dt)) } := by
  induction n with
  | zero =>
    intro p hcd hb hbm hinc
    simp [playerReleaseN, min_eq_right hbm]
  | succ n ih =>
    intro p hcd hb hbm hinc
    have hy : 0 ≤ p.boost.inc_amount * dt := mul_nonneg hinc hdt
    have hstep := playerStep_release_boost T dt p hcd hb
    have hq0 : 0 ≤ min p.boost.max_boost (p.boost.boost + p.boost.inc_amount * dt) :=
      le_min (le_trans hb hbm) (by linarith)
    rw [playerReleaseN]
    rw [ih (playerStep T [] dt p).state (by rw [hstep]; exact hcd) (by rw [hstep]; exact hq0)
      (by rw [hstep]; dsimp only; exact min_le_left _ _)
      (by rw [hstep]; exact hinc)]
    rw [hstep]
    dsimp only
    congr 1
    rw [min_absorb_add _ _ _ (by positivity)]
    congr 1
    push_cast
    ring

/-- C6 (amended): while the boost key is held and boosting remains possible,
`n` ticks of `dt` reduce boost by exactly `(dec_amount − inc_amount)·(n·dt)` —
not `dec_amount·t` as claimed, because the regeneration at `systems.rs:537`
runs unconditionally every tick — and with the key released, `n` ticks
increase boost by exactly `inc_amount·(n·dt)`, clamped to `max_boost`. -/
theorem C6_boost_drain_regen (T : TrigModel) (dt : ℚ) (n : ℕ) (p : PlayerComponents)
    (hcd : p.boost.cooldown = none) (hinc : 0 ≤ p.boost.inc_amount)
    (hid : p.boost.inc_amount ≤ p.boost.dec_amount) (hdec : 0 < p.boost.dec_amount)
    (hbm : p.boost.boost ≤ p.boost.max_boost) :
    (0 < dt → (n : ℚ) * (p.boost.dec_amount * dt) ≤ p.boost.boost →
      (playerHoldN T dt n p).boost.boost
        = p.boost.boost - (n : ℚ) * ((p.boost.dec_amount - p.boost.inc_amount) * dt)) ∧
    (0 ≤ dt → 0 ≤ p.boost.boost →
      (playerReleaseN T dt n p).boost.boost
        = min p.boost.max_boost (p.boost.boost + (n : ℚ) * (p.boost.inc_amount * dt))) := by
  constructor
  · intro hdt hble
    rw [playerHoldN_boost T dt hdt n p hcd hinc hid hdec hbm hble]
  · intro hdt hb
    rw [playerReleaseN_boost T dt hdt n p hcd hb hbm hinc]

/-- A concrete trig model used for evaluating the player system at test inputs. -/
def trigTest : TrigModel :=
  { cos := fun _ => 1, sin := fun _ => 0, toDegrees := fun _ => 0, pi := 3 }

/-- C6: the claim fails on the code. One tick of `dt = 1/60` holding boost from
the default state (boost 100, max 100, dec 50, inc 10, `can_boost()` true)
leaves boost `100 − 40·(1/60)`, not `100 − 50·(1/60)`: the regeneration step
runs every tick, even while draining. -/
theorem C6_counterexample :
    (playerHoldN trigTest (1/60) 1 (setupPlayer 3)).boost.boost = 100 - 40 * (1/60) ∧
    (100 - 40 * (1/60) : ℚ) ≠ 100 - 50 * (1/60) := by
  constructor
  · norm_num [playerHoldN, playerStep, playerApplyKey, setupPlayer, BoostRes.default,
      BoostRes.can_boost, BoostRes.is_empty, BoostRes.no_cooldown, SCREEN_WIDTH,
      SCREEN_HEIGHT, trigTest, Velocity.new, min_def]
  · norm_num

/-- Witness for C6 from the default boost state (100/100, dec 50, inc 10) with
`dt = 1/60` and two ticks each way. -/
theorem C6_boost_drain_regen_witness :
    (playerHoldN trigTest (1/60) 2 (setupPlayer 3)).boost.boost
      = (setupPlayer 3).boost.boost
        - ((2 : ℕ) : ℚ) * (((setupPlayer 3).boost.dec_amount
            - (setupPlayer 3).boost.inc_amount) * (1/60)) ∧
    (playerReleaseN trigTest (1/60) 2 (setupPlayer 3)).boost.boost
      = min (setupPlayer 3).boost.max_boost
          ((setupPlayer 3).boost.boost
            + ((2 : ℕ) : ℚ) * ((setupPlayer 3).boost.inc_amount * (1/60))) :=
  ⟨(C6_boost_drain_regen trigTest (1/60) 2 (setupPlayer 3) rfl
      (by norm_num [setupPlayer, BoostRes.default])
      (by norm_num [setupPlayer, BoostRes.default])
      (by norm_num [setupPlayer, BoostRes.default])
      (by norm_num [setupPlayer, BoostRes.default])).1
    (by norm_num) (by norm_num [setupPlayer, BoostRes.default]),
   (C6_boost_drain_regen trigTest (1/60) 2 (setupPlayer 3) rfl
      (by norm_num [setupPlayer, BoostRes.default])
      (by norm_num [setupPlayer, BoostRes.default])
      (by norm_num [setupPlayer, BoostRes.default])
      (by norm_num [setupPlayer, BoostRes.default])).2
    (by norm_num) (by norm_num [setupPlayer, BoostRes.default])⟩

end Bytepath
